import Mathlib

/-!
Verification of the automobile edge-costing model (`AutoCost` in
`src/thor/autocost.cc`) of the valhalla route planner.

Shallow embedding conventions:
 - IEEE single-precision float arithmetic of the source is modelled by exact
   rational arithmetic (`ℚ`); all the constants involved (3600, 0.001,
   50000, 10000, 5000) are written as the exact rationals the source text
   denotes.
 - `uint8_t` speed values are `Fin 256`; `uint32_t` masks are `ℕ` combined
   with the bitwise operators the source uses.
 - The 256-entry C array `speedfactor_` starts uninitialized; an
   uninitialized slot is modelled as `none`, a written slot as `some v`.
   Accordingly `Get`/`Seconds` return `Option ℚ`: `none` models a read of
   an uninitialized array entry (undefined behaviour in the source).
-/

namespace Valhalla

/-- `kSecPerHour` from `midgard/constants.h`: seconds per hour. -/
def kSecPerHour : ℚ := 3600

/-- `kAutoAccess` from `baldr/graphconstants.h` (not under `src/`):
the automobile access bit of an access bitmask, bit 0. -/
def kAutoAccess : ℕ := 1

/-- `baldr::DirectedEdge`, restricted to the fields `AutoCost` reads:
`length()` (meters, unsigned), `speed()` (km/h, `uint8_t`),
`localedgeidx()` (5-bit field, 0..31), `shortcut()`, `not_thru()`,
`trans_up()`, `trans_down()` (flags), `endnode().level()` (hierarchy
level of the end node), and `forwardaccess()` (access bitmask). -/
structure DirectedEdge where
  length : ℕ
  speed : Fin 256
  localedgeidx : Fin 32
  shortcut : Bool
  not_thru : Bool
  trans_up : Bool
  trans_down : Bool
  endNodeLevel : ℕ
  forwardaccess : ℕ
deriving Repr, DecidableEq

namespace AutoCost

/-- The `speedfactor_` table as left by the constructor `AutoCost::AutoCost`:
`speedfactor_[0] = kSecPerHour`; the loop `for (s = 1; s < 255; s++)` writes
`speedfactor_[s] = (kSecPerHour * 0.001f) / s`; index 255 is inside the
array but outside the loop bound and is never written (`none`). The array
is only ever indexed by a `uint8_t` speed, so indices above 255 are
unreachable (also `none` here). -/
def speedfactor (s : ℕ) : Option ℚ :=
  if s = 0 then
    some kSecPerHour
  else if s < 255 then
    some ((kSecPerHour * (1 / 1000)) / (s : ℚ))
  else
    none

/-- `AutoCost::Allowed(edge, restriction, uturn, dist2dest)`:
the edge-access check, transcribed clause by clause from the source. -/
def Allowed (edge : DirectedEdge) (restriction : ℕ) (uturn : Bool)
    (dist2dest : ℚ) : Bool :=
  if restriction &&& (1 <<< edge.localedgeidx.val) ≠ 0 then
    false
  else if edge.trans_up then
    if edge.endNodeLevel = 0 then decide (dist2dest > 50000)
    else decide (dist2dest > 10000)
  else if edge.trans_down then
    if edge.endNodeLevel = 1 then decide (dist2dest < 50000)
    else decide (dist2dest < 10000)
  else if edge.shortcut && decide (dist2dest < 10000) then
    false
  else if uturn || (edge.not_thru && decide (dist2dest > 5000)) then
    false
  else
    decide (edge.forwardaccess &&& kAutoAccess ≠ 0)

/-- `AutoCost::Get(edge)`: `edge->length() * speedfactor_[edge->speed()]`.
`none` when the table slot read is uninitialized. -/
def Get (edge : DirectedEdge) : Option ℚ :=
  (speedfactor edge.speed.val).map (fun f => (edge.length : ℚ) * f)

/-- `AutoCost::Seconds(edge)`: `edge->length() * speedfactor_[edge->speed()]`. -/
def Seconds (edge : DirectedEdge) : Option ℚ :=
  (speedfactor edge.speed.val).map (fun f => (edge.length : ℚ) * f)

/-- `AutoCost::AStarCostFactor()`: `speedfactor_[120]`. -/
def AStarCostFactor : Option ℚ :=
  speedfactor 120

end AutoCost

/-- Sum of `AutoCost::Get` along a list of edges; `none` as soon as one
edge's cost reads an uninitialized table slot. -/
def pathCost : List DirectedEdge → Option ℚ
  | [] => some 0
  | e :: rest => do
      let c ← AutoCost.Get e
      let r ← pathCost rest
      pure (c + r)

/-- Total length of a list of edges, in meters. -/
def totalLength (p : List DirectedEdge) : ℚ :=
  (p.map (fun e => (e.length : ℚ))).sum

/-- A transition-up edge ending at hierarchy level 0, used as concrete input. -/
def edgeUp0 : DirectedEdge :=
  { length := 100, speed := 50, localedgeidx := 3, shortcut := false,
    not_thru := false, trans_up := true, trans_down := false,
    endNodeLevel := 0, forwardaccess := 1 }

/-- An edge with speed 255, the unpopulated slot of the speed table. -/
def edgeSpeed255 : DirectedEdge :=
  { length := 100, speed := 255, localedgeidx := 0, shortcut := false,
    not_thru := false, trans_up := false, trans_down := false,
    endNodeLevel := 2, forwardaccess := 1 }

/-- An ordinary (non-transition) shortcut edge with automobile access. -/
def edgeShortcut : DirectedEdge :=
  { length := 100, speed := 50, localedgeidx := 2, shortcut := true,
    not_thru := false, trans_up := false, trans_down := false,
    endNodeLevel := 2, forwardaccess := 1 }

/-- An ordinary edge, length 1000, speed 60, automobile access. -/
def edge1000 : DirectedEdge :=
  { length := 1000, speed := 60, localedgeidx := 0, shortcut := false,
    not_thru := false, trans_up := false, trans_down := false,
    endNodeLevel := 2, forwardaccess := 1 }

/-- A transition-up edge ending at level 0 whose forward access mask lacks
the automobile bit. -/
def edgeUpNoAccess : DirectedEdge :=
  { length := 100, speed := 50, localedgeidx := 1, shortcut := false,
    not_thru := false, trans_up := true, trans_down := false,
    endNodeLevel := 0, forwardaccess := 0 }

/-- C1, counterexample: `Allowed` with `uturn = true` does NOT always return
false — the transition-up branch returns before the u-turn check, so a
transition-up edge to level 0 at distance 60000 is allowed even on a u-turn. -/
theorem C1_counterexample :
    AutoCost.Allowed edgeUp0 0 true 60000 = true := by
  decide

/-- C1, amended: for every edge that is not a hierarchy transition
(`trans_up` and `trans_down` both false), `Allowed` with `uturn = true`
returns false regardless of the other fields. -/
theorem C1_amended_uturn (edge : DirectedEdge) (restriction : ℕ)
    (dist2dest : ℚ)
    (hup : edge.trans_up = false) (hdn : edge.trans_down = false) :
    AutoCost.Allowed edge restriction true dist2dest = false := by
  unfold AutoCost.Allowed
  rw [hup, hdn]
  simp

/-- Witness for C1 amended at a concrete non-transition edge. -/
theorem C1_amended_witness :
    AutoCost.Allowed edgeShortcut 0 true 20000 = false :=
  C1_amended_uturn edgeShortcut 0 20000 rfl rfl

/-- C2: the constructor's loop `for (s = 1; s < 255; ...)` never writes
`speedfactor_[255]`, so `Get` on an edge with speed 255 reads an
uninitialized table entry (modelled as `none`) — the code does not clamp
or define index 255 as the claim requires. -/
theorem C2_speed255_uninitialized :
    AutoCost.speedfactor 255 = none ∧
    AutoCost.Get edgeSpeed255 = none :=
  ⟨rfl, rfl⟩

/-- C3: if bit `localedgeidx` is set in the restriction mask, `Allowed`
returns false, whatever the other arguments and fields are. -/
theorem C3_restriction_precedence (edge : DirectedEdge) (restriction : ℕ)
    (uturn : Bool) (dist2dest : ℚ)
    (h : restriction &&& (1 <<< edge.localedgeidx.val) ≠ 0) :
    AutoCost.Allowed edge restriction uturn dist2dest = false := by
  unfold AutoCost.Allowed
  simp [h]

/-- Witness for C3: an edge whose access mask permits automobiles is still
denied when its restriction bit is set. -/
theorem C3_witness :
    AutoCost.Allowed edge1000 1 false 20000 = false :=
  C3_restriction_precedence edge1000 1 false 20000 (by decide)

/-- C4: for an unrestricted transition-up edge, `Allowed` is true iff the
distance exceeds 50000 at end-node level 0 and 10000 at any other level. -/
theorem C4_transition_up (edge : DirectedEdge) (restriction : ℕ)
    (uturn : Bool) (dist2dest : ℚ)
    (hres : restriction &&& (1 <<< edge.localedgeidx.val) = 0)
    (hup : edge.trans_up = true) :
    (AutoCost.Allowed edge restriction uturn dist2dest = true ↔
      if edge.endNodeLevel = 0 then dist2dest > 50000
      else dist2dest > 10000) := by
  unfold AutoCost.Allowed
  rw [hup]
  simp [hres]

/-- Witness for C4: a level-0 transition-up edge at distance 60000 is
allowed; at 40000 it is denied. -/
theorem C4_witness :
    AutoCost.Allowed edgeUp0 0 false 60000 = true ∧
    AutoCost.Allowed edgeUp0 0 false 40000 = false := by
  constructor
  · exact (C4_transition_up edgeUp0 0 false 60000 (by decide) rfl).mpr
      (by norm_num [edgeUp0])
  · have h := C4_transition_up edgeUp0 0 false 40000 (by decide) rfl
    norm_num [edgeUp0] at h
    exact h

/-- C5: for an unrestricted, non-transition shortcut edge, `Allowed` is
false whenever the distance is below 10000; at distance at least 10000 the
shortcut flag no longer decides, and the edge is allowed iff there is no
u-turn, the not-thru rule does not fire, and the forward access mask has
the automobile bit. -/
theorem C5_shortcut (edge : DirectedEdge) (restriction : ℕ) (uturn : Bool)
    (dist2dest : ℚ)
    (hres : restriction &&& (1 <<< edge.localedgeidx.val) = 0)
    (hup : edge.trans_up = false) (hdn : edge.trans_down = false)
    (hsc : edge.shortcut = true) :
    (dist2dest < 10000 →
      AutoCost.Allowed edge restriction uturn dist2dest = false) ∧
    (10000 ≤ dist2dest →
      (AutoCost.Allowed edge restriction uturn dist2dest = true ↔
        uturn = false ∧ ¬(edge.not_thru = true ∧ dist2dest > 5000) ∧
          edge.forwardaccess &&& kAutoAccess ≠ 0)) := by
  unfold AutoCost.Allowed
  rw [hup, hdn, hsc]
  constructor
  · intro h
    simp [hres, h]
  · intro h
    have hlt : ¬ dist2dest < 10000 := not_lt.mpr h
    simp [hres, hlt]
    rcases Bool.eq_false_or_eq_true edge.not_thru with hb | hb <;>
      · simp [hb]
        try tauto

/-- Witness for C5: a shortcut edge at distance 20000 with all other
predicates passing is allowed; at distance 5000 it is denied. -/
theorem C5_witness :
    AutoCost.Allowed edgeShortcut 0 false 5000 = false ∧
    AutoCost.Allowed edgeShortcut 0 false 20000 = true := by
  constructor
  · exact (C5_shortcut edgeShortcut 0 false 5000 (by decide) rfl rfl rfl).1
      (by norm_num)
  · exact ((C5_shortcut edgeShortcut 0 false 20000
      (by decide) rfl rfl rfl).2 (by norm_num)).mpr
      (by refine ⟨rfl, ?_, by decide⟩; simp [edgeShortcut])

/-- C6: for speed 1..254, `Get` is `length * ((3600 * 0.001) / speed)`; for
speed 0 it is `length * 3600`; and `Get` scales linearly in `length`. -/
theorem C6_edge_cost (edge : DirectedEdge) :
    (1 ≤ edge.speed.val → edge.speed.val ≤ 254 →
      AutoCost.Get edge =
        some ((edge.length : ℚ) *
          (((3600 : ℚ) * (1 / 1000)) / (edge.speed.val : ℚ)))) ∧
    (edge.speed.val = 0 →
      AutoCost.Get edge = some ((edge.length : ℚ) * 3600)) ∧
    (∀ (k : ℕ) (c : ℚ), AutoCost.Get edge = some c →
      AutoCost.Get { edge with length := k * edge.length } =
        some ((k : ℚ) * c)) := by
  refine ⟨?_, ?_, ?_⟩
  · intro h1 h2
    unfold AutoCost.Get AutoCost.speedfactor
    rw [if_neg (by omega), if_pos (by omega)]
    rfl
  · intro h0
    unfold AutoCost.Get AutoCost.speedfactor
    rw [if_pos h0]
    rfl
  · intro k c hc
    unfold AutoCost.Get at hc ⊢
    cases hf : AutoCost.speedfactor edge.speed with
    | none => rw [hf] at hc; cases hc
    | some f =>
      rw [hf] at hc
      simp at hc
      simp [hf]
      rw [← hc]
      ring

/-- Witness for C6 at an edge of length 1000 and speed 60. -/
theorem C6_witness :
    1 ≤ edge1000.speed.val ∧ edge1000.speed.val ≤ 254 ∧
    AutoCost.Get edge1000 =
      some ((edge1000.length : ℚ) *
        (((3600 : ℚ) * (1 / 1000)) / (edge1000.speed.val : ℚ))) :=
  ⟨by decide, by decide, (C6_edge_cost edge1000).1 (by decide) (by decide)⟩

/-- C7: the speed table is strictly decreasing on indices 1..254: for every
`s` in 2..254 both `table[s-1]` and `table[s]` are populated and
`table[s-1] > table[s]` (hence also `table[s-1] >= table[s]`). -/
theorem C7_speedfactor_strict_anti (s : ℕ) (h1 : 2 ≤ s) (h2 : s ≤ 254) :
    ∃ a b : ℚ,
      AutoCost.speedfactor (s - 1) = some a ∧
      AutoCost.speedfactor s = some b ∧ b < a ∧ b ≤ a := by
  refine ⟨(kSecPerHour * (1 / 1000)) / ((s - 1 : ℕ) : ℚ),
          (kSecPerHour * (1 / 1000)) / ((s : ℕ) : ℚ), ?_, ?_, ?_, ?_⟩
  · unfold AutoCost.speedfactor
    rw [if_neg (by omega), if_pos (by omega)]
  · unfold AutoCost.speedfactor
    rw [if_neg (by omega), if_pos (by omega)]
  · have hs0 : (0 : ℚ) < ((s - 1 : ℕ) : ℚ) := by
      exact_mod_cast (by omega : 0 < s - 1)
    have hss : ((s - 1 : ℕ) : ℚ) < ((s : ℕ) : ℚ) := by
      exact_mod_cast (by omega : s - 1 < s)
    have hnum : (0 : ℚ) < kSecPerHour * (1 / 1000) := by
      norm_num [kSecPerHour]
    exact div_lt_div_of_pos_left hnum hs0 hss
  · have hs0 : (0 : ℚ) < ((s - 1 : ℕ) : ℚ) := by
      exact_mod_cast (by omega : 0 < s - 1)
    have hss : ((s - 1 : ℕ) : ℚ) < ((s : ℕ) : ℚ) := by
      exact_mod_cast (by omega : s - 1 < s)
    have hnum : (0 : ℚ) < kSecPerHour * (1 / 1000) := by
      norm_num [kSecPerHour]
    exact le_of_lt (div_lt_div_of_pos_left hnum hs0 hss)

/-- Witness for C7 at index 100 (comparing `table[99]` with `table[100]`). -/
theorem C7_witness :
    ∃ a b : ℚ,
      AutoCost.speedfactor 99 = some a ∧
      AutoCost.speedfactor 100 = some b ∧ b < a ∧ b ≤ a :=
  C7_speedfactor_strict_anti 100 (by omega) (by omega)

/-- C8: `AStarCostFactor` is `speedfactor_[120]`, and the heuristic is
admissible: for every path whose edges all have speed in 1..120,
`factor * totalLength` is at most the sum of the edge costs. -/
theorem C8_heuristic_admissible :
    AutoCost.AStarCostFactor = AutoCost.speedfactor 120 ∧
    ∀ (p : List DirectedEdge) (f : ℚ),
      AutoCost.AStarCostFactor = some f →
      (∀ e ∈ p, 1 ≤ e.speed.val ∧ e.speed.val ≤ 120) →
      ∃ c : ℚ, pathCost p = some c ∧ f * totalLength p ≤ c := by
  refine ⟨rfl, ?_⟩
  intro p f hf hsp
  have hfv : AutoCost.AStarCostFactor = some ((3 : ℚ) / 100) := by
    unfold AutoCost.AStarCostFactor AutoCost.speedfactor
    norm_num [kSecPerHour]
  rw [hfv] at hf
  have hfval : f = (3 : ℚ) / 100 := (Option.some_inj.mp hf).symm
  subst hfval
  induction p with
  | nil => exact ⟨0, rfl, by simp [totalLength]⟩
  | cons e rest ih =>
    obtain ⟨he1, he2⟩ := hsp e (by simp)
    obtain ⟨c, hc, hle⟩ := ih (fun x hx => hsp x (by simp [hx]))
    have hget : AutoCost.Get e =
        some ((e.length : ℚ) *
          ((kSecPerHour * (1 / 1000)) / (e.speed.val : ℚ))) := by
      unfold AutoCost.Get AutoCost.speedfactor
      rw [if_neg (by omega), if_pos (by omega)]
      rfl
    refine ⟨(e.length : ℚ) *
      ((kSecPerHour * (1 / 1000)) / (e.speed.val : ℚ)) + c, ?_, ?_⟩
    · simp [pathCost, hget, hc]
    · have hlen : (0 : ℚ) ≤ (e.length : ℚ) := Nat.cast_nonneg _
      have hsp0 : (0 : ℚ) < (e.speed.val : ℚ) := by
        exact_mod_cast (by omega : 0 < e.speed.val)
      have hfle : (3 : ℚ) / 100 ≤
          (kSecPerHour * (1 / 1000)) / (e.speed.val : ℚ) := by
        rw [div_le_div_iff₀ (by norm_num) hsp0]
        have h120 : (e.speed.val : ℚ) ≤ 120 := by exact_mod_cast he2
        norm_num [kSecPerHour]
        linarith
      have h1 : (e.length : ℚ) * ((3 : ℚ) / 100) ≤
          (e.length : ℚ) * ((kSecPerHour * (1 / 1000)) / (e.speed.val : ℚ)) :=
        mul_le_mul_of_nonneg_left hfle hlen
      have htl : totalLength (e :: rest) = (e.length : ℚ) + totalLength rest := by
        simp [totalLength]
      rw [htl, mul_add]
      linarith

/-- Witness for C8 on the one-edge path of length 1000 at speed 60. -/
theorem C8_witness :
    ∃ c : ℚ, pathCost [edge1000] = some c ∧
      (3 : ℚ) / 100 * totalLength [edge1000] ≤ c :=
  C8_heuristic_admissible.2 [edge1000] ((3 : ℚ) / 100)
    (by unfold AutoCost.AStarCostFactor AutoCost.speedfactor
        norm_num [kSecPerHour])
    (by decide)

/-- C9: the accumulated-cost function `Get` and the travel-time function
`Seconds` agree on every edge, and both equal
`length * speedfactor_[speed]`. -/
theorem C9_get_eq_seconds (edge : DirectedEdge) :
    AutoCost.Get edge = AutoCost.Seconds edge ∧
    AutoCost.Get edge =
      (AutoCost.speedfactor edge.speed.val).map
        (fun f => (edge.length : ℚ) * f) :=
  ⟨rfl, rfl⟩

/-- C10: an unrestricted hierarchy-transition edge that passes its distance
threshold is allowed even when the forward access mask lacks the automobile
bit — the access-mask test is never reached for transition edges. -/
theorem C10_transition_bypasses_access (edge : DirectedEdge)
    (restriction : ℕ) (uturn : Bool) (dist2dest : ℚ)
    (hres : restriction &&& (1 <<< edge.localedgeidx.val) = 0)
    (haccess : edge.forwardaccess &&& kAutoAccess = 0)
    (hthresh :
      (edge.trans_up = true ∧
        (if edge.endNodeLevel = 0 then dist2dest > 50000
         else dist2dest > 10000)) ∨
      (edge.trans_up = false ∧ edge.trans_down = true ∧
        (if edge.endNodeLevel = 1 then dist2dest < 50000
         else dist2dest < 10000))) :
    AutoCost.Allowed edge restriction uturn dist2dest = true := by
  unfold AutoCost.Allowed
  rcases hthresh with ⟨hup, hd⟩ | ⟨hup, hdn, hd⟩
  · rw [hup]
    by_cases h0 : edge.endNodeLevel = 0 <;>
      simp [hres, h0] at hd ⊢ <;> exact hd
  · rw [hup, hdn]
    by_cases h1 : edge.endNodeLevel = 1 <;>
      simp [hres, h1] at hd ⊢ <;> exact hd

/-- Witness for C10: a level-0 transition-up edge with no automobile access
bit, at distance 60000, is allowed. -/
theorem C10_witness :
    AutoCost.Allowed edgeUpNoAccess 0 false 60000 = true :=
  C10_transition_bypasses_access edgeUpNoAccess 0 false 60000 (by decide)
    (by decide) (Or.inl ⟨rfl, by norm_num [edgeUpNoAccess]⟩)

end Valhalla
